import Mathlib

/-!
Verification of the container-stack orchestration subsystem of HosMonitorDash.

The definitions below are a shallow embedding of the TypeScript source:

* `server/database-storage.ts` (the `DatabaseStorage` class actually exported as
  the application's `storage`): `resolveStackId`, `resolveServiceName`,
  `filterContainersByService`, `mapContainerState`, `aggregateServiceState`,
  `aggregateStackStatus`, `buildStackFromContainers`, `loadDockerStacks`,
  `getContainerStacks`, `performContainerAction`, `describeContainerAction`,
  `resolveStackPath`, `formatDisplayName`.
* `server/docker-engine.ts` (`DockerEngine`): the pull request shape
  (`pullImage` sends the whole image reference as `fromIamge`-parameter, no tag).
* the compose client used by `MemStorage` (`mapDockerState`, `buildService`,
  `determineStackStatus`, `groupContainers`, `splitImage`,
  `performActionOnContainer`, `listDockerStacks`, `performDockerStackAction`)
  and the `MemStorage` wrappers in `server/storage.ts`.

External effects (the Docker engine socket and its HTTP API) are modelled by an
explicit environment `DockerEnv`; each embedded operation returns its result
together with the ordered list of mutating engine calls it issued and the
telemetry events it recorded.  JavaScript `Date` values (`updatedAt`,
`toLocaleTimeString`) are not modelled except for an opaque rendered clock
string `DockerEnv.now`.
-/

namespace HosMonitor

/-- Lifecycle state of a derived service (`ContainerService["state"]` in
`shared/schema.ts`). -/
inductive SvcState where
  | running
  | stopped
  | restarting
  | error
deriving DecidableEq, Repr

/-- Aggregate status of a stack (`ContainerStack["status"]` in
`shared/schema.ts`). -/
inductive StackStatus where
  | running
  | stopped
  | degraded
deriving DecidableEq, Repr

/-- One declared port mapping of a container, as reported by the engine
(`DockerContainerSummary.Ports` element in `server/docker-engine.ts`, resp.
`DockerPort` in the compose client).  Numbers the source treats as possibly
absent are `Option Nat`; the transport field (`Type` in the source, a Lean
keyword) is a `String`, with `""` standing for an absent/empty value. -/
structure DockerPort where
  IP : Option String := none
  PrivatePort : Option Nat
  PublicPort : Option Nat
  Type' : String
deriving DecidableEq, Repr

/-- Engine-reported facts for one container (`DockerContainerSummary` /
`DockerContainerInfo`).  The label map is an association list. -/
structure DockerContainerSummary where
  Id : String
  Names : List String
  Image : String
  State : String
  Status : Option String
  Ports : List DockerPort
  Labels : List (String × String)
deriving DecidableEq, Repr

/-- Derived service view (`ContainerService` in `shared/schema.ts`). -/
structure ContainerService where
  name : String
  image : String
  replicas : Nat
  state : SvcState
  ports : List String
  lastEvent : String
deriving DecidableEq, Repr

/-- Derived stack view (`ContainerStack` in `shared/schema.ts`).  The
`updatedAt : Date` field is not modelled. -/
structure ContainerStack where
  id : String
  name : String
  projectName : String
  path : String
  status : StackStatus
  services : List ContainerService
  primaryServerId : Option String
  lastAction : Option String
deriving DecidableEq, Repr

/-- The closed action vocabulary (`containerActionSchema.action`). -/
inductive ActionKind where
  | up
  | down
  | restart
  | pull
deriving DecidableEq, Repr

/-- A validated action request (`ContainerActionInput`). -/
structure ContainerActionInput where
  action : ActionKind
  services : Option (List String)
deriving DecidableEq, Repr

/-- An unvalidated action payload, before `containerActionSchema` parsing. -/
structure RawContainerAction where
  action : String
  services : Option (List String)
deriving DecidableEq, Repr

/-- Embedding of `containerActionSchema` (zod): the action must be one of the
four verbs; `services` is an optional list of strings (an empty list passes). -/
def parseContainerAction (raw : RawContainerAction) : Except String ContainerActionInput :=
  match raw.action with
  | "up" => .ok ⟨.up, raw.services⟩
  | "down" => .ok ⟨.down, raw.services⟩
  | "restart" => .ok ⟨.restart, raw.services⟩
  | "pull" => .ok ⟨.pull, raw.services⟩
  | _ => .error "Invalid enum value"

/-- Payload of one telemetry event as passed to `recordTelemetryEvent`
(`RecordTelemetryInput`); the generated id and timestamp are not modelled. -/
structure TelemetryEventData where
  serverId : String
  metric : String
  value : Nat
  unit : String
  status : String
  message : String
deriving DecidableEq, Repr

/-- A thrown JavaScript error, distinguishing the typed
`DockerUnavailableError` of the compose client from a plain `Error`. -/
inductive JsError where
  | dockerUnavailable (msg : String)
  | error (msg : String)
deriving DecidableEq, Repr

/-- One mutating call issued to the engine.  A pull is recorded with the query
parameters of `POST /images/create` (`fromImage`, and `tag` when set). -/
inductive EngineCall where
  | start (id : String)
  | stop (id : String)
  | restart (id : String)
  | pull (fromImage : String) (tag : Option String)
deriving DecidableEq, Repr

/-- The external world as seen by one embedded operation: whether the control
socket exists, the outcome of the i-th `GET /containers/json?all=1` of the
call, the outcome of each mutating call, and the rendered local clock used in
the compose client's Portuguese status strings. -/
structure DockerEnv where
  avail : Bool
  listing : Nat → Except String (List DockerContainerSummary)
  startResult : String → Except String Unit
  stopResult : String → Except String Unit
  restartResult : String → Except String Unit
  pullResult : String → Option String → Except String Unit
  now : String

instance {ε α : Type} [DecidableEq ε] [DecidableEq α] : DecidableEq (Except ε α) := fun x y =>
  match x, y with
  | .ok a, .ok b => if h : a = b then .isTrue (by rw [h]) else .isFalse (by simp [h])
  | .error a, .error b => if h : a = b then .isTrue (by rw [h]) else .isFalse (by simp [h])
  | .ok _, .error _ => .isFalse (by simp)
  | .error _, .ok _ => .isFalse (by simp)

/-- Result of one embedded action-dispatch: the returned value (or thrown
error), the mutating engine calls issued in order, and the telemetry events
recorded. -/
structure ActionRun where
  result : Except JsError (Option ContainerStack)
  calls : List EngineCall
  telemetry : List TelemetryEventData
deriving DecidableEq, Repr

/-! ### JavaScript-semantics helpers -/

/-- JS truthiness of an optional number: `undefined` and `0` are falsy. -/
def natTruthy : Option Nat → Bool
  | none => false
  | some n => n != 0

/-- JS truthiness of an optional string: `undefined` and `""` are falsy. -/
def strTruthy : Option String → Bool
  | none => false
  | some s => s != ""

/-- JS `a || b` on an optional string with a string fallback. -/
def jsOrStr (a : Option String) (b : String) : String :=
  match a with
  | some s => if s = "" then b else s
  | none => b

/-- Embeds `.replace(/^\//, "")`: drop a single leading slash. -/
def stripLeadingSlash (s : String) : String :=
  match s.data with
  | '/' :: rest => String.mk rest
  | _ => s

/-- Embeds `.slice(0, n)` (on code points). -/
def jsTake (s : String) (n : Nat) : String := String.mk (s.data.take n)

/-- Embeds `.toLowerCase()` (per-character lowering). -/
def jsToLower (s : String) : String := String.mk (s.data.map Char.toLower)

/-- Embeds `.split(sep)[0]`: the prefix before the first occurrence of `sep`. -/
def firstSegment (sep : Char) (s : String) : String :=
  String.mk (s.data.takeWhile (fun c => c ≠ sep))

/-- Embeds `container.Labels?.[key]`. -/
def labelGet (labels : List (String × String)) (key : String) : Option String :=
  labels.lookup key

/-- Embeds `container.Names?.[0]?.replace(/^\//, "") ?? container.Id.slice(0, 12)` —
the shared display-name fallback chain. -/
def primaryName (c : DockerContainerSummary) : String :=
  (c.Names.head?.map stripLeadingSlash).getD (jsTake c.Id 12)

/-! ### DatabaseStorage: pure stack aggregation (`server/database-storage.ts`) -/

/-- Embeds `mapContainerState` of `DatabaseStorage`: raw engine state → service state. -/
def mapContainerState (state : String) : SvcState :=
  match state with
  | "running" => .running
  | "restarting" => .restarting
  | "paused" => .stopped
  | "created" => .stopped
  | "exited" => .stopped
  | "dead" => .error
  | "removing" => .error
  | _ => .error

/-- Embeds `aggregateServiceState` of `DatabaseStorage`. -/
def aggregateServiceState (states : List SvcState) : SvcState :=
  if states.all (· == .running) then .running
  else if states.all (· == .stopped) then .stopped
  else if states.contains .restarting then .restarting
  else .error

/-- Embeds `aggregateStackStatus` of `DatabaseStorage`. -/
def aggregateStackStatus (services : List ContainerService) : StackStatus :=
  if services.isEmpty then .stopped
  else if services.all (·.state == .running) then .running
  else if services.all (·.state == .stopped) then .stopped
  else .degraded

/-- Embeds `resolveStackId` of `DatabaseStorage`: the compose project label when
truthy, else the container's primary display name / truncated id. -/
def resolveStackId (c : DockerContainerSummary) : String :=
  match labelGet c.Labels "com.docker.compose.project" with
  | some p => if p = "" then primaryName c else p
  | none => primaryName c

/-- Embeds `resolveServiceName` of `DatabaseStorage`: the compose service label when
truthy, else the container's primary display name / truncated id. -/
def resolveServiceName (c : DockerContainerSummary) : String :=
  match labelGet c.Labels "com.docker.compose.service" with
  | some s => if s = "" then primaryName c else s
  | none => primaryName c

/-- Embeds `filterContainersByService` of `DatabaseStorage`: an absent or empty
`services` list keeps every container; otherwise containers are kept when their
resolved service name matches one of the requested names case-insensitively. -/
def filterContainersByService (containers : List DockerContainerSummary)
    (services : Option (List String)) : List DockerContainerSummary :=
  match services with
  | none => containers
  | some l =>
    if l.isEmpty then containers
    else
      let normalized := l.map jsToLower
      containers.filter (fun c => normalized.contains (jsToLower (resolveServiceName c)))

/-- Insertion-ordered update of an association list, mirroring a JS `Map`:
an existing key is updated in place, a new key is appended at the end. -/
def upsertAssoc {α : Type} (k : String) (f : Option α → α) :
    List (String × α) → List (String × α)
  | [] => [(k, f none)]
  | (k', v) :: rest =>
    if k' = k then (k', f (some v)) :: rest else (k', v) :: upsertAssoc k f rest

/-- Fold a container list into a JS `Map` keyed by `key`, threading each
element into its key's entry with `f` (entries appear in first-seen order). -/
def groupFold {C α : Type} (key : C → String) (f : C → Option α → α) (l : List C) :
    List (String × α) :=
  l.foldl (fun acc c => upsertAssoc (key c) (f c) acc) []

/-- The `grouped : Map<string, DockerContainerSummary[]>` built by
`loadDockerStacks`, keyed by `resolveStackId`. -/
def groupByStackId (containers : List DockerContainerSummary) :
    List (String × List DockerContainerSummary) :=
  groupFold resolveStackId (fun c o => (o.getD []) ++ [c]) containers

/-- The per-service accumulator record of `buildStackFromContainers`
(`servicesByName` entry): image, replica count, member states, the port-string
`Set` (insertion-ordered, deduplicated), and member status lines. -/
structure ServiceEntry where
  image : String
  replicas : Nat
  states : List SvcState
  ports : List String
  events : List String
deriving DecidableEq, Repr

/-- Embeds `` `${publicPort}${port.PrivatePort}/${port.Type}` `` with
`publicPort = port.PublicPort ? `${port.PublicPort}:` : ""`. -/
def renderPort (p : DockerPort) : String :=
  (if natTruthy p.PublicPort then toString (p.PublicPort.getD 0) ++ ":" else "")
    ++ toString (p.PrivatePort.getD 0) ++ "/" ++ p.Type'

/-- JS `Set.add`: append the string unless already present. -/
def insertUnique (l : List String) (s : String) : List String :=
  if l.contains s then l else l ++ [s]

/-- The inner port loop of `buildStackFromContainers`: each port with a truthy
`PrivatePort` is rendered and added to the entry's port set. -/
def addPorts (acc : List String) (ports : List DockerPort) : List String :=
  ports.foldl (fun acc p => if natTruthy p.PrivatePort then insertUnique acc (renderPort p) else acc) acc

/-- One iteration of the `servicesByName` fold in `buildStackFromContainers`:
fetch (or default) the entry for the container's service name and thread the
container into it. -/
def serviceStep (c : DockerContainerSummary) (o : Option ServiceEntry) : ServiceEntry :=
  let entry := o.getD { image := c.Image, replicas := 0, states := [], ports := [], events := [] }
  { image := c.Image,
    replicas := entry.replicas + 1,
    states := entry.states ++ [mapContainerState c.State],
    ports := addPorts entry.ports c.Ports,
    events := entry.events ++ [c.Status.getD ""] }

/-- Insert `a` into `l` after every element `b` with `le b a` failing only at
the first position where `le a b` holds; on a sorted list this is ordered
insertion. -/
def insertOrdered {α : Type} (le : α → α → Bool) (a : α) : List α → List α
  | [] => [a]
  | b :: bs => if le a b then a :: b :: bs else b :: insertOrdered le a bs

/-- Insertion sort, used to model JS `Array.sort(...)`: the observable result
of a JS sort under a total order is the sorted permutation of its input. -/
def sortBy {α : Type} (le : α → α → Bool) : List α → List α
  | [] => []
  | a :: as => insertOrdered le a (sortBy le as)

/-- Boolean string order used to model the default JS `Array.sort()` on the
port strings (code-unit comparison). -/
def strLeB (a b : String) : Bool := !((String.decLt b a).decide)

/-- Boolean name order used to model `sort((a, b) => a.name.localeCompare(b.name))`
(modelled as code-point comparison). -/
def svcLe (a b : ContainerService) : Bool := strLeB a.name b.name

/-- Materialize one `ContainerService` from a `servicesByName` entry. -/
def mkService (k : String) (e : ServiceEntry) : ContainerService :=
  { name := k,
    image := e.image,
    replicas := e.replicas,
    state := aggregateServiceState e.states,
    ports := sortBy strLeB e.ports,
    lastEvent := (e.events.find? (fun ev => ev.length > 0)).getD "" }

/-- The full `services` array built by `buildStackFromContainers`: the
`servicesByName` map materialized in insertion order and sorted by name. -/
def servicesOf (containers : List DockerContainerSummary) : List ContainerService :=
  sortBy svcLe ((groupFold resolveServiceName serviceStep containers).map
    (fun kv => mkService kv.1 kv.2))

/-- Embeds `resolveStackPath` of `DatabaseStorage`. -/
def resolveStackPath (c : DockerContainerSummary) : String :=
  match labelGet c.Labels "com.docker.compose.project.config_files" with
  | some cf =>
    if cf = "" then
      match labelGet c.Labels "com.docker.compose.project.working_dir" with
      | some wd => if wd = "" then primaryName c else wd
      | none => primaryName c
    else firstSegment ',' cf
  | none =>
    match labelGet c.Labels "com.docker.compose.project.working_dir" with
    | some wd => if wd = "" then primaryName c else wd
    | none => primaryName c

/-- Characters replaced by `/[-_]+/g`. -/
def isDashUnderscore (c : Char) : Bool := c = '-' || c = '_'

/-- Whitespace as matched by `/\s+/g` (restricted to the common ASCII cases). -/
def isJsSpace (c : Char) : Bool := c = ' ' || c = '\t' || c = '\n' || c = '\r'

/-- Word characters as matched by `\w`. -/
def isWordChar (c : Char) : Bool := c.isAlphanum || c = '_'

/-- Replace every maximal run of characters matching `p` by the single
character `repl` (the flag records whether the previous character matched). -/
def squashRunsAux (p : Char → Bool) (repl : Char) : Bool → List Char → List Char
  | _, [] => []
  | inRun, c :: rest =>
    if p c then (if inRun then [] else [repl]) ++ squashRunsAux p repl true rest
    else c :: squashRunsAux p repl false rest

/-- Embeds `.replace(/X+/g, repl)` for a character class `p`. -/
def squashRuns (p : Char → Bool) (repl : Char) (l : List Char) : List Char :=
  squashRunsAux p repl false l

/-- Embeds `.trim()` on a character list. -/
def trimChars (l : List Char) : List Char :=
  ((l.dropWhile isJsSpace).reverse.dropWhile isJsSpace).reverse

/-- Embeds `.replace(/\b\w/g, c => c.toUpperCase())`: uppercase each word character
that starts a word (the flag records whether the previous character was a word
character). -/
def capitalizeBoundaries : Bool → List Char → List Char
  | _, [] => []
  | prevW, c :: rest =>
    (if isWordChar c && !prevW then c.toUpper else c) :: capitalizeBoundaries (isWordChar c) rest

/-- Embeds `formatDisplayName` of `DatabaseStorage`: dash/underscore runs to spaces,
whitespace collapsed, trimmed, words title-cased. -/
def formatDisplayName (value : String) : String :=
  String.mk (capitalizeBoundaries false
    (trimChars (squashRuns isJsSpace ' ' (squashRuns isDashUnderscore ' ' value.data))))

/-- A placeholder container used only to keep `buildStackFromContainers` total;
every call site passes a non-empty group, matching the source, where
`containers[0]` is accessed unconditionally. -/
def defaultContainer : DockerContainerSummary :=
  { Id := "", Names := [], Image := "", State := "", Status := none, Ports := [], Labels := [] }

/-- Embeds `buildStackFromContainers` of `DatabaseStorage`. -/
def buildStackFromContainers (stackId : String)
    (containers : List DockerContainerSummary) : ContainerStack :=
  let primary := containers.head?.getD defaultContainer
  let projectName := (labelGet primary.Labels "com.docker.compose.project").getD stackId
  let services := servicesOf containers
  { id := stackId,
    name := formatDisplayName projectName,
    projectName := projectName,
    path := resolveStackPath primary,
    status := aggregateStackStatus services,
    services := services,
    primaryServerId := none,
    lastAction := primary.Status }

/-- The pure part of `loadDockerStacks`: group a snapshot by stack id and
build one stack per group. -/
def dockerStacksOf (containers : List DockerContainerSummary) : List ContainerStack :=
  (groupByStackId containers).map (fun g => buildStackFromContainers g.1 g.2)

/-- Embeds `loadDockerStacks` of `DatabaseStorage`: `[]` when the engine socket is
absent or the snapshot is empty; a listing failure propagates as a plain
error.  `i` is the index of the listing this call consumes. -/
def loadDockerStacks (env : DockerEnv) (i : Nat) : Except JsError (List ContainerStack) :=
  if env.avail then
    match env.listing i with
    | .error e => .error (.error e)
    | .ok containers =>
      if containers.isEmpty then .ok [] else .ok (dockerStacksOf containers)
  else .ok []

/-- Boolean stack-name order modelling `sort((a, b) => a.name.localeCompare(b.name))`. -/
def stackLe (a b : ContainerStack) : Bool := strLeB a.name b.name

/-- Embeds `getContainerStacks` of `DatabaseStorage` (the application's `listStacks`):
load and sort by display name. -/
def getContainerStacksDB (env : DockerEnv) : Except JsError (List ContainerStack) :=
  (loadDockerStacks env 0).map (fun l => sortBy stackLe l)

/-! ### DatabaseStorage: action dispatch (`performContainerAction`) -/

/-- Rendered name of an action verb. -/
def actionName : ActionKind → String
  | .up => "up"
  | .down => "down"
  | .restart => "restart"
  | .pull => "pull"

/-- Embeds `describeContainerAction` of `DatabaseStorage`. -/
def describeContainerAction (action : ActionKind) (count : Nat) : String :=
  let suffix := if count = 1 then "container" else "containers"
  match action with
  | .up => "Iniciado " ++ toString count ++ " " ++ suffix
  | .down => "Interrompido " ++ toString count ++ " " ++ suffix
  | .restart => "Reiniciado " ++ toString count ++ " " ++ suffix
  | .pull => "Imagem atualizada para " ++ toString count ++ " " ++ suffix

/-- The request issued by `DockerEngine.pullImage`: the whole (URI-encoded)
image reference is passed as the `fromImage` query parameter and no `tag`
parameter is ever set. -/
def pullImageCall (image : String) : EngineCall := .pull image none

/-- Embeds `applyContainerAction` of `DatabaseStorage`: the engine call made for one
container, paired with its outcome from the environment.  A pull uses the
container's current image reference via `DockerEngine.pullImage`. -/
def applyContainerAction (env : DockerEnv) (c : DockerContainerSummary)
    (action : ActionKind) : EngineCall × Except String Unit :=
  match action with
  | .up => (.start c.Id, env.startResult c.Id)
  | .down => (.stop c.Id, env.stopResult c.Id)
  | .restart => (.restart c.Id, env.restartResult c.Id)
  | .pull => (pullImageCall c.Image, env.pullResult c.Image none)

/-- Embeds `container.Names?.[0] ?? container.Id` — the label used in
`performContainerAction` error messages. -/
def containerLabel (c : DockerContainerSummary) : String :=
  c.Names.head?.getD c.Id

/-- The per-container loop of `performContainerAction`: calls are issued
sequentially; the first failure aborts the loop with a wrapped error (the
failing call was still issued and is kept in the trace). -/
def runActionLoop (env : DockerEnv) (action : ActionKind) :
    List DockerContainerSummary → List EngineCall × Except JsError Unit
  | [] => ([], .ok ())
  | c :: rest =>
    let step := applyContainerAction env c action
    match step.2 with
    | .ok _ =>
      let tail := runActionLoop env action rest
      (step.1 :: tail.1, tail.2)
    | .error e =>
      ([step.1],
       .error (.error ("Failed to execute " ++ actionName action ++ " for container "
         ++ containerLabel c ++ ": " ++ e)))

/-- Embeds `performContainerAction` of `DatabaseStorage`: availability check, list,
resolve the stack's containers, filter by requested services, mutate, re-list,
re-derive, and record one telemetry event on success.  Telemetry recording is
the in-memory `recordTelemetryEvent` of the same class, which always
succeeds. -/
def performContainerAction (env : DockerEnv) (id : String)
    (action : ContainerActionInput) : ActionRun :=
  if env.avail then
    match env.listing 0 with
    | .error e => ⟨.error (.error e), [], []⟩
    | .ok containers =>
      let stackContainers := containers.filter (fun c => resolveStackId c == id)
      if stackContainers.isEmpty then ⟨.ok none, [], []⟩
      else
        let targetContainers := filterContainersByService stackContainers action.services
        if targetContainers.isEmpty then ⟨.ok none, [], []⟩
        else
          let loopOut := runActionLoop env action.action targetContainers
          match loopOut.2 with
          | .error e => ⟨.error e, loopOut.1, []⟩
          | .ok _ =>
            match loadDockerStacks env 1 with
            | .error e => ⟨.error e, loopOut.1, []⟩
            | .ok updatedStacks =>
              match updatedStacks.find? (fun s => s.id == id) with
              | none => ⟨.ok none, loopOut.1, []⟩
              | some stack =>
                let affectedCount := targetContainers.length
                let lastAction := describeContainerAction action.action affectedCount
                let result := { stack with lastAction := some lastAction }
                ⟨.ok (some result), loopOut.1,
                 [{ serverId := result.primaryServerId.getD result.id,
                    metric := "container." ++ actionName action.action,
                    value := affectedCount,
                    unit := "containers",
                    status := if action.action = .down then "warning" else "ok",
                    message := result.name ++ ": " ++ lastAction }]⟩
  else ⟨.error (.error "Docker engine is not accessible from this environment"), [], []⟩

/-! ### Compose client used by `MemStorage` (docker.ts) -/

/-- Embeds `mapDockerState` of the compose client (different from `DatabaseStorage`'s
`mapContainerState`: `created` falls to `error`, `dead` to `stopped`). -/
def mapDockerState (state : String) : SvcState :=
  match state with
  | "running" => .running
  | "restarting" => .restarting
  | "paused" => .stopped
  | "exited" => .stopped
  | "dead" => .stopped
  | _ => .error

/-- Port rendering in the compose client's `buildService`: input order, no
deduplication, no sorting; ports with neither a truthy public nor private port
render as `""` and are dropped by `.filter(Boolean)`. -/
def buildServicePorts (ports : List DockerPort) : List String :=
  (ports.map (fun p =>
    let proto := if p.Type' = "" then "" else "/" ++ p.Type'
    if natTruthy p.PublicPort then
      toString (p.PublicPort.getD 0) ++ ":"
        ++ (match p.PrivatePort with | some n => toString n | none => "?") ++ proto
    else if natTruthy p.PrivatePort then toString (p.PrivatePort.getD 0) ++ proto
    else "")).filter (fun s => s ≠ "")

/-- Embeds `buildService` of the compose client: one service per container, replica
count always 1, named after the container. -/
def buildService (c : DockerContainerSummary) : ContainerService :=
  { name := primaryName c,
    image := c.Image,
    replicas := 1,
    state := mapDockerState c.State,
    ports := buildServicePorts c.Ports,
    lastEvent := c.Status.getD "" }

/-- Embeds `determineStackStatus` of the compose client. -/
def determineStackStatus (services : List ContainerService) : StackStatus :=
  let running := services.countP (fun s => s.state == .running)
  let restarting := services.countP (fun s => s.state == .restarting)
  let stopped := services.countP (fun s => s.state == .stopped)
  if services.length = 0 then .stopped
  else if running = services.length then .running
  else if running = 0 ∧ restarting = 0 ∧ stopped = services.length then .stopped
  else .degraded

/-- A stack together with its member containers (`DockerStackDetails`). -/
structure DockerStackDetails where
  stack : ContainerStack
  containers : List DockerContainerSummary
deriving DecidableEq, Repr

/-- Embeds `groupContainers` of the compose client: insertion-ordered `Map` keyed by
the compose project (or the container id for unlabeled containers), each entry
carrying the running stack view.  `now` is the rendered local time. -/
def groupContainers (now : String) (containers : List DockerContainerSummary) :
    List (String × DockerStackDetails) :=
  containers.foldl (fun groups c =>
    let project := jsOrStr (labelGet c.Labels "com.docker.compose.project") "docker-host"
    let stackId := if project = "docker-host" then c.Id else project
    let stackName := if project = "docker-host" then "Containers locais" else project
    let stackPath :=
      jsOrStr ((labelGet c.Labels "com.docker.compose.project.config-files").map
          (fun cf => firstSegment ',' cf))
        (jsOrStr (labelGet c.Labels "com.docker.compose.project.working_dir") "Docker")
    let service := buildService c
    upsertAssoc stackId (fun existing =>
      match existing with
      | some entry =>
        let newServices := entry.stack.services ++ [service]
        { containers := entry.containers ++ [c],
          stack := { entry.stack with
            services := newServices,
            status := determineStackStatus newServices } }
      | none =>
        { containers := [c],
          stack :=
            { id := stackId,
              name := stackName,
              projectName := project,
              path := stackPath,
              status := determineStackStatus [service],
              services := [service],
              primaryServerId := none,
              lastAction := some ("Atualizado às " ++ now) } }) groups) []

/-- Embeds `fetchDockerContainers` via `dockerRequest`: a missing socket surfaces as
the typed `DockerUnavailableError` (ENOENT mapping); any other transport or
status failure is a plain error. -/
def fetchDockerContainers (env : DockerEnv) (i : Nat) :
    Except JsError (List DockerContainerSummary) :=
  if env.avail then
    match env.listing i with
    | .ok cs => .ok cs
    | .error e => .error (.error e)
  else
    .error (.dockerUnavailable
      "Docker socket not found at /var/run/docker.sock. Configure DOCKER_SOCKET env variable if necessary.")

/-- Embeds `listDockerStacks` of the compose client: group the snapshot, return the
stack views; `DockerUnavailableError` is rethrown unchanged, other failures
are wrapped. -/
def listDockerStacks (env : DockerEnv) : Except JsError (List ContainerStack) :=
  match fetchDockerContainers env 0 with
  | .ok containers => .ok ((groupContainers env.now containers).map (fun g => g.2.stack))
  | .error (.dockerUnavailable m) => .error (.dockerUnavailable m)
  | .error (.error m) => .error (.error ("Failed to list Docker containers: " ++ m))

/-- Embeds `findStackDetails`: re-fetch and look the stack id up in the grouping. -/
def findStackDetails (env : DockerEnv) (i : Nat) (stackId : String) :
    Except JsError (Option DockerStackDetails) :=
  match fetchDockerContainers env i with
  | .ok cs => .ok ((groupContainers env.now cs).lookup stackId)
  | .error e => .error e

/-- Index of the last occurrence of `c`, or `none`. -/
def lastIndexOf (c : Char) : List Char → Option Nat
  | [] => none
  | x :: xs =>
    match lastIndexOf c xs with
    | some i => some (i + 1)
    | none => if x = c then some 0 else none

/-- JS `String.prototype.lastIndexOf` for a single character (-1 if absent). -/
def jsLastIndexOf (c : Char) (s : String) : Int :=
  match lastIndexOf c s.data with
  | some i => (i : Int)
  | none => -1

/-- Embeds `splitImage` of the compose client: split `repository[:tag]` at the last
colon when it occurs after the last slash; the tag defaults to `latest` when
no such colon exists or the part after it is empty. -/
def splitImage (image : String) : String × String :=
  let lastColon := jsLastIndexOf ':' image
  let lastSlash := jsLastIndexOf '/' image
  if lastColon = -1 ∨ lastColon < lastSlash then (image, "latest")
  else
    let repo := String.mk (image.data.take lastColon.toNat)
    let tag := String.mk (image.data.drop (lastColon.toNat + 1))
    (repo, if tag = "" then "latest" else tag)

/-- Embeds `performActionOnContainer` of the compose client; a pull splits the image
reference and sends `fromImage`/`tag` query parameters. -/
def performActionOnContainer (env : DockerEnv) (containerId : String)
    (action : ActionKind) (image : String) : EngineCall × Except String Unit :=
  match action with
  | .up => (.start containerId, env.startResult containerId)
  | .down => (.stop containerId, env.stopResult containerId)
  | .restart => (.restart containerId, env.restartResult containerId)
  | .pull =>
    let split := splitImage image
    let tagParam := if split.2 = "" then none else some split.2
    (.pull split.1 tagParam, env.pullResult split.1 tagParam)

/-- The per-container loop of `performDockerStackAction`: containers whose
name-derived service name is not targeted are skipped; the first failure
aborts with a wrapped error. -/
def memActionLoop (env : DockerEnv) (action : ActionKind) (targetNames : List String) :
    List DockerContainerSummary → List EngineCall × Except JsError Unit
  | [] => ([], .ok ())
  | c :: rest =>
    let serviceName := primaryName c
    if targetNames.contains serviceName then
      let step := performActionOnContainer env c.Id action c.Image
      match step.2 with
      | .ok _ =>
        let tail := memActionLoop env action targetNames rest
        (step.1 :: tail.1, tail.2)
      | .error e =>
        ([step.1],
         .error (.error ("Failed to execute action " ++ actionName action ++ " on container "
           ++ serviceName ++ ": " ++ e)))
    else memActionLoop env action targetNames rest

/-- Embeds `performDockerStackAction` of the compose client.  Note: when the `services`
filter is a non-empty list naming no container, the loop mutates nothing but
the refreshed stack is still returned (not a not-found result). -/
def performDockerStackAction (env : DockerEnv) (stackId : String)
    (action : ContainerActionInput) : ActionRun :=
  match findStackDetails env 0 stackId with
  | .error (.dockerUnavailable m) => ⟨.error (.dockerUnavailable m), [], []⟩
  | .error (.error m) =>
    ⟨.error (.error ("Failed to resolve stack " ++ stackId ++ ": " ++ m)), [], []⟩
  | .ok none => ⟨.ok none, [], []⟩
  | .ok (some details) =>
    let targetNames :=
      match action.services with
      | some l => if l.isEmpty then details.stack.services.map (fun s => s.name) else l
      | none => details.stack.services.map (fun s => s.name)
    let loopOut := memActionLoop env action.action targetNames details.containers
    match loopOut.2 with
    | .error e => ⟨.error e, loopOut.1, []⟩
    | .ok _ =>
      match findStackDetails env 1 stackId with
      | .error e => ⟨.error e, loopOut.1, []⟩
      | .ok none => ⟨.ok none, loopOut.1, []⟩
      | .ok (some updated) =>
        let affectedCount :=
          match action.services with
          | some l => l.length
          | none => updated.stack.services.length
        let actionMessage :=
          match action.action with
          | .up => "Stack iniciado (" ++ toString affectedCount ++ " serviço(s))"
          | .down => "Stack interrompido (" ++ toString affectedCount ++ " serviço(s))"
          | .restart => "Stack reiniciado (" ++ toString affectedCount ++ " serviço(s))"
          | .pull => "Imagens atualizadas (" ++ toString affectedCount ++ " serviço(s))"
        let st := { updated.stack with lastAction := some (actionMessage ++ " às " ++ env.now) }
        ⟨.ok (some st), loopOut.1, []⟩

/-- Embeds `MemStorage.getContainerStacks`: rethrow `DockerUnavailableError`, wrap
any other failure. -/
def memGetContainerStacks (env : DockerEnv) : Except JsError (List ContainerStack) :=
  match listDockerStacks env with
  | .ok stackList => .ok stackList
  | .error (.dockerUnavailable m) => .error (.dockerUnavailable m)
  | .error (.error m) =>
    .error (.error ("Não foi possível listar os containers: " ++ m))

/-- Embeds `MemStorage.performContainerAction`: dispatch, wrap failures, and on a
normal result record one telemetry event (the in-memory `recordTelemetryEvent`,
which always succeeds; its `try`/`catch` guard is therefore never exercised). -/
def memPerformContainerAction (env : DockerEnv) (id : String)
    (action : ContainerActionInput) : ActionRun :=
  let run := performDockerStackAction env id action
  match run.result with
  | .error (.dockerUnavailable m) => ⟨.error (.dockerUnavailable m), run.calls, []⟩
  | .error (.error m) =>
    ⟨.error (.error ("Falha ao executar ação no stack " ++ id ++ ": " ++ m)), run.calls, []⟩
  | .ok none => ⟨.ok none, run.calls, []⟩
  | .ok (some st) =>
    let affectedCount :=
      match action.services with
      | some l => l.length
      | none => st.services.length
    ⟨.ok (some st), run.calls,
     [{ serverId := id,
        metric := "container." ++ actionName action.action,
        value := affectedCount,
        unit := "serviços",
        status := if action.action = .down then "warning" else "ok",
        message := st.name ++ ": " ++ (st.lastAction.getD "Ação executada") }]⟩

/-! ### Concrete sample inputs used for counterexamples and witnesses -/

/-- One step of the per-entry fold, as a total function on entries (the
`some` case of `serviceStep`). -/
def stepE (e : ServiceEntry) (c : DockerContainerSummary) : ServiceEntry :=
  serviceStep c (some e)

/-- The accumulated `servicesByName` entry of a non-empty member list. -/
def memberEntry : List DockerContainerSummary → ServiceEntry
  | [] => { image := "", replicas := 0, states := [], ports := [], events := [] }
  | c :: fl => fl.foldl stepE (serviceStep c none)

/-- A single unlabeled running container named `web`. -/
def webContainer : DockerContainerSummary :=
  { Id := "c1", Names := ["/web"], Image := "nginx", State := "running",
    Status := some "Up 5 minutes", Ports := [], Labels := [] }

/-- An environment whose engine is up and always reports `webContainer`. -/
def envOk : DockerEnv :=
  { avail := true, listing := fun _ => .ok [webContainer],
    startResult := fun _ => .ok (), stopResult := fun _ => .ok (),
    restartResult := fun _ => .ok (), pullResult := fun _ _ => .ok (),
    now := "10:00:00" }

/-- The stack `performContainerAction envOk "web" ⟨.up, none⟩` returns. -/
def webStackStarted : ContainerStack :=
  { id := "web", name := "Web", projectName := "web", path := "web",
    status := .running,
    services := [{ name := "web", image := "nginx", replicas := 1,
                   state := .running, ports := [], lastEvent := "Up 5 minutes" }],
    primaryServerId := none,
    lastAction := some "Iniciado 1 container" }

/-- An environment whose engine control socket is absent. -/
def envNoSock : DockerEnv :=
  { avail := false, listing := fun _ => .ok [],
    startResult := fun _ => .ok (), stopResult := fun _ => .ok (),
    restartResult := fun _ => .ok (), pullResult := fun _ _ => .ok (),
    now := "10:00:00" }

/-- An environment in which the stack disappears between the pre-action
listing and the post-action re-listing. -/
def envGone : DockerEnv :=
  { avail := true,
    listing := fun i => if i = 0 then .ok [webContainer] else .ok [],
    startResult := fun _ => .ok (), stopResult := fun _ => .ok (),
    restartResult := fun _ => .ok (), pullResult := fun _ _ => .ok (),
    now := "10:00:00" }

/-- A container exposing `{8080→80/tcp}` and `{9090/tcp}` (no host port),
listed in reverse lexical order to exercise the sort. -/
def portDemoContainer : DockerContainerSummary :=
  { Id := "p1", Names := ["/web"], Image := "img", State := "running",
    Status := some "Up", Labels := [],
    Ports := [{ PrivatePort := some 9090, PublicPort := none, Type' := "tcp" },
              { PrivatePort := some 80, PublicPort := some 8080, Type' := "tcp" }] }

/-- The service derived from `portDemoContainer`. -/
def portDemoService : ContainerService :=
  { name := "web", image := "img", replicas := 1, state := .running,
    ports := ["8080:80/tcp", "9090/tcp"], lastEvent := "Up" }

/-- The service derived from `webContainer`. -/
def webService : ContainerService :=
  { name := "web", image := "nginx", replicas := 1, state := .running,
    ports := [], lastEvent := "Up 5 minutes" }

/-- A running container whose image reference carries a tag. -/
def taggedContainer : DockerContainerSummary :=
  { Id := "c2", Names := ["/cache"], Image := "redis:7", State := "running",
    Status := some "Up", Ports := [], Labels := [] }

/-- An environment whose engine is up and always reports `taggedContainer`. -/
def envTagged : DockerEnv :=
  { avail := true, listing := fun _ => .ok [taggedContainer],
    startResult := fun _ => .ok (), stopResult := fun _ => .ok (),
    restartResult := fun _ => .ok (), pullResult := fun _ _ => .ok (),
    now := "10:00:00" }

/-- A running service and a stopped service, for status witnesses. -/
def svcRunning : ContainerService :=
  { name := "api", image := "img", replicas := 1, state := .running,
    ports := [], lastEvent := "" }

/-- A stopped companion to `svcRunning`. -/
def svcStopped : ContainerService :=
  { name := "db", image := "img", replicas := 1, state := .stopped,
    ports := [], lastEvent := "" }

/-! ### Lemmas: insertion sort -/

theorem mem_insertOrdered {α : Type} (le : α → α → Bool) (a x : α) :
    ∀ l : List α, x ∈ insertOrdered le a l ↔ x = a ∨ x ∈ l
  | [] => by simp [insertOrdered]
  | b :: bs => by
    simp only [insertOrdered]
    by_cases h : le a b = true
    · simp [h]
    · simp only [if_neg h, List.mem_cons, mem_insertOrdered le a x bs]
      tauto

theorem perm_insertOrdered {α : Type} (le : α → α → Bool) (a : α) :
    ∀ l : List α, List.Perm (insertOrdered le a l) (a :: l)
  | [] => by simp [insertOrdered]
  | b :: bs => by
    simp only [insertOrdered]
    by_cases h : le a b = true
    · simp [h]
    · rw [if_neg h]
      exact ((perm_insertOrdered le a bs).cons b).trans (List.Perm.swap a b bs)

theorem perm_sortBy {α : Type} (le : α → α → Bool) :
    ∀ l : List α, List.Perm (sortBy le l) l
  | [] => by simp [sortBy]
  | a :: as => by
    simpa [sortBy] using (perm_insertOrdered le a (sortBy le as)).trans
      ((perm_sortBy le as).cons a)

theorem mem_sortBy {α : Type} (le : α → α → Bool) (x : α) (l : List α) :
    x ∈ sortBy le l ↔ x ∈ l :=
  (perm_sortBy le l).mem_iff

theorem nodup_sortBy {α : Type} (le : α → α → Bool) (l : List α) (h : l.Nodup) :
    (sortBy le l).Nodup :=
  (perm_sortBy le l).nodup_iff.mpr h

theorem pairwise_insertOrdered {α : Type} (le : α → α → Bool)
    (htot : ∀ a b, le a b = true ∨ le b a = true)
    (htrans : ∀ a b c, le a b = true → le b c = true → le a c = true) (a : α) :
    ∀ l : List α, l.Pairwise (fun x y => le x y = true) →
      (insertOrdered le a l).Pairwise (fun x y => le x y = true)
  | [], _ => by simp [insertOrdered]
  | b :: bs, h => by
    rcases List.pairwise_cons.mp h with ⟨hb, hbs⟩
    simp only [insertOrdered]
    by_cases hab : le a b = true
    · rw [if_pos hab]
      refine List.pairwise_cons.mpr ⟨?_, h⟩
      intro y hy
      rcases List.mem_cons.mp hy with rfl | hy
      · exact hab
      · exact htrans a b y hab (hb y hy)
    · rw [if_neg hab]
      refine List.pairwise_cons.mpr ⟨?_, pairwise_insertOrdered le htot htrans a bs hbs⟩
      intro y hy
      rcases (mem_insertOrdered le a y bs).mp hy with h' | hy
      · rw [h']
        exact (htot a b).resolve_left hab
      · exact hb y hy

theorem pairwise_sortBy {α : Type} (le : α → α → Bool)
    (htot : ∀ a b, le a b = true ∨ le b a = true)
    (htrans : ∀ a b c, le a b = true → le b c = true → le a c = true) :
    ∀ l : List α, (sortBy le l).Pairwise (fun x y => le x y = true)
  | [] => by simp [sortBy]
  | a :: as => pairwise_insertOrdered le htot htrans a (sortBy le as)
      (pairwise_sortBy le htot htrans as)

/-! ### Lemmas: the boolean string order agrees with `≤` -/

theorem strLeB_iff_le (a b : String) : strLeB a b = true ↔ a ≤ b := by
  simp only [strLeB, Bool.not_eq_true', decide_eq_false_iff_not]
  rw [← not_lt]
  apply not_congr
  have h1 : @LT.lt String String.instLT b a ↔ List.Lex (· < ·) b.data a.data :=
    List.lt_iff_lex_lt b.data a.data
  have h2 : @LT.lt String String.LT' b a ↔ List.Lex (· < ·) b.data a.data := by
    rw [String.lt_iff_toList_lt]
    exact Iff.rfl
  exact h1.trans h2.symm

theorem strLeB_total (a b : String) : strLeB a b = true ∨ strLeB b a = true := by
  rcases le_total a b with h | h
  · exact Or.inl ((strLeB_iff_le a b).mpr h)
  · exact Or.inr ((strLeB_iff_le b a).mpr h)

theorem strLeB_trans (a b c : String) (h1 : strLeB a b = true) (h2 : strLeB b c = true) :
    strLeB a c = true :=
  (strLeB_iff_le a c).mpr (le_trans ((strLeB_iff_le a b).mp h1) ((strLeB_iff_le b c).mp h2))

/-! ### Lemmas: insertion-ordered association lists (JS `Map`) -/

theorem lookup_upsertAssoc_self {α : Type} (k : String) (f : Option α → α) :
    ∀ l : List (String × α), (upsertAssoc k f l).lookup k = some (f (l.lookup k))
  | [] => by simp [upsertAssoc, List.lookup]
  | (k', v) :: rest => by
    by_cases h : k' = k
    · subst h
      simp [upsertAssoc, List.lookup]
    · have hbeq : (k == k') = false := by
        simp [beq_iff_eq]
        exact fun e => h e.symm
      simp only [upsertAssoc, if_neg h, List.lookup, hbeq]
      exact lookup_upsertAssoc_self k f rest

theorem lookup_upsertAssoc_ne {α : Type} (k k' : String) (f : Option α → α)
    (hne : k' ≠ k) :
    ∀ l : List (String × α), (upsertAssoc k f l).lookup k' = l.lookup k'
  | [] => by
    have hbeq : (k' == k) = false := by simp [beq_iff_eq, hne]
    simp [upsertAssoc, List.lookup, hbeq]
  | (k₀, v) :: rest => by
    by_cases h : k₀ = k
    · subst h
      have hbeq : (k' == k₀) = false := by simp [beq_iff_eq, hne]
      simp [upsertAssoc, List.lookup, hbeq]
    · simp only [upsertAssoc, if_neg h, List.lookup]
      cases hbeq : (k' == k₀) with
      | true => rfl
      | false => exact lookup_upsertAssoc_ne k k' f hne rest

theorem keys_upsertAssoc {α : Type} (k : String) (f : Option α → α) :
    ∀ l : List (String × α),
      (upsertAssoc k f l).map Prod.fst =
        if k ∈ l.map Prod.fst then l.map Prod.fst else l.map Prod.fst ++ [k]
  | [] => by simp [upsertAssoc]
  | (k', v) :: rest => by
    by_cases h : k' = k
    · subst h
      simp [upsertAssoc]
    · have h' : ¬ k = k' := fun e => h e.symm
      simp only [upsertAssoc, if_neg h, List.map_cons, List.mem_cons, h', false_or]
      rw [keys_upsertAssoc k f rest]
      by_cases hm : k ∈ rest.map Prod.fst
      · simp [hm]
      · simp [hm]

theorem nodupKeys_upsertAssoc {α : Type} (k : String) (f : Option α → α)
    (l : List (String × α)) (h : (l.map Prod.fst).Nodup) :
    ((upsertAssoc k f l).map Prod.fst).Nodup := by
  rw [keys_upsertAssoc]
  by_cases hm : k ∈ l.map Prod.fst
  · simpa [hm] using h
  · simpa [hm, List.nodup_append] using h

theorem foldl_upsert_lookup {C α : Type} (key : C → String) (f : C → Option α → α) :
    ∀ (l : List C) (acc : List (String × α)) (k : String),
      ((l.foldl (fun acc c => upsertAssoc (key c) (f c) acc) acc).lookup k) =
        (l.filter (fun c => key c == k)).foldl (fun v c => some (f c v)) (acc.lookup k)
  | [], _, _ => rfl
  | c :: rest, acc, k => by
    simp only [List.foldl_cons]
    rw [foldl_upsert_lookup key f rest]
    by_cases h : key c = k
    · have hbeq : (key c == k) = true := by simp [beq_iff_eq, h]
      rw [List.filter_cons, if_pos hbeq, List.foldl_cons]
      subst h
      rw [lookup_upsertAssoc_self]
    · have hbeq : (key c == k) = false := by simp [beq_iff_eq, h]
      rw [List.filter_cons, if_neg (by simp [hbeq]),
        lookup_upsertAssoc_ne _ _ _ (fun e => h e.symm)]

theorem lookup_groupFold {C α : Type} (key : C → String) (f : C → Option α → α)
    (l : List C) (k : String) :
    (groupFold key f l).lookup k =
      (l.filter (fun c => key c == k)).foldl (fun v c => some (f c v)) none := by
  have := foldl_upsert_lookup key f l [] k
  simpa [groupFold, List.lookup] using this

theorem nodupKeys_foldl_upsert {C α : Type} (key : C → String) (f : C → Option α → α) :
    ∀ (l : List C) (acc : List (String × α)),
      (acc.map Prod.fst).Nodup →
      ((l.foldl (fun acc c => upsertAssoc (key c) (f c) acc) acc).map Prod.fst).Nodup
  | [], _, h => h
  | c :: rest, acc, h => by
    simp only [List.foldl_cons]
    exact nodupKeys_foldl_upsert key f rest _ (nodupKeys_upsertAssoc _ _ _ h)

theorem nodupKeys_groupFold {C α : Type} (key : C → String) (f : C → Option α → α)
    (l : List C) : ((groupFold key f l).map Prod.fst).Nodup :=
  nodupKeys_foldl_upsert key f l [] (by simp)

theorem mem_of_lookup_eq_some {α : Type} (k : String) (v : α) :
    ∀ l : List (String × α), l.lookup k = some v → (k, v) ∈ l
  | [], h => by simp [List.lookup] at h
  | (k', v') :: rest, h => by
    by_cases hk : k = k'
    · subst hk
      simp only [List.lookup, beq_self_eq_true] at h
      injection h with h
      subst h
      exact List.mem_cons_self _ _
    · have hbeq : (k == k') = false := by simp [beq_iff_eq, hk]
      simp only [List.lookup, hbeq] at h
      exact List.mem_cons_of_mem _ (mem_of_lookup_eq_some k v rest h)

theorem lookup_eq_some_of_mem_nodup {α : Type} (k : String) (v : α) :
    ∀ l : List (String × α), (l.map Prod.fst).Nodup → (k, v) ∈ l →
      l.lookup k = some v
  | [], _, hm => by simp at hm
  | (k', v') :: rest, hnd, hm => by
    rcases List.mem_cons.mp hm with he | hm'
    · injection he with h1 h2
      subst h1; subst h2
      simp [List.lookup]
    · have hk : k ≠ k' := by
        intro e
        subst e
        have : k ∈ rest.map Prod.fst := List.mem_map.mpr ⟨(k, v), hm', rfl⟩
        exact (List.nodup_cons.mp (by simpa using hnd)).1 this
      have hbeq : (k == k') = false := by simp [beq_iff_eq, hk]
      simp only [List.lookup, hbeq]
      exact lookup_eq_some_of_mem_nodup k v rest (List.nodup_cons.mp (by simpa using hnd)).2 hm'

/-! ### Lemmas: the stack grouping -/

theorem foldl_appendAccum {C : Type} :
    ∀ (fl : List C) (xs : List C),
      fl.foldl (fun (v : Option (List C)) c => some ((v.getD []) ++ [c])) (some xs) =
        some (xs ++ fl)
  | [], xs => by simp
  | c :: fl, xs => by
    simp only [List.foldl_cons, Option.getD_some]
    rw [foldl_appendAccum fl (xs ++ [c])]
    simp

theorem lookup_groupByStackId (cs : List DockerContainerSummary) (k : String) :
    (groupByStackId cs).lookup k =
      if cs.filter (fun c => resolveStackId c == k) = [] then none
      else some (cs.filter (fun c => resolveStackId c == k)) := by
  rw [groupByStackId, lookup_groupFold]
  cases hf : cs.filter (fun c => resolveStackId c == k) with
  | nil => simp
  | cons c fl =>
    simp only [List.foldl_cons, Option.getD_none, List.nil_append]
    rw [foldl_appendAccum fl [c]]
    simp

theorem groupByStackId_mem_value (cs : List DockerContainerSummary)
    (k : String) (v : List DockerContainerSummary)
    (h : (k, v) ∈ groupByStackId cs) :
    v = cs.filter (fun c => resolveStackId c == k) ∧ v ≠ [] := by
  have hl := lookup_eq_some_of_mem_nodup k v (groupByStackId cs)
    (nodupKeys_groupFold _ _ cs) h
  rw [lookup_groupByStackId] at hl
  by_cases hf : cs.filter (fun c => resolveStackId c == k) = []
  · rw [if_pos hf] at hl
    cases hl
  · rw [if_neg hf] at hl
    injection hl with hl
    subst hl
    exact ⟨rfl, hf⟩

/-! ### Lemmas: the per-service fold of `buildStackFromContainers` -/

theorem optionFold_some (fl : List DockerContainerSummary) :
    ∀ e : ServiceEntry,
      fl.foldl (fun v c => some (serviceStep c v)) (some e) = some (fl.foldl stepE e) := by
  induction fl with
  | nil => intro e; rfl
  | cons c fl ih =>
    intro e
    simp only [List.foldl_cons]
    exact ih (stepE e c)

theorem lookup_serviceEntries (cs : List DockerContainerSummary) (k : String) :
    (groupFold resolveServiceName serviceStep cs).lookup k =
      if cs.filter (fun c => resolveServiceName c == k) = [] then none
      else some (memberEntry (cs.filter (fun c => resolveServiceName c == k))) := by
  rw [lookup_groupFold]
  cases hf : cs.filter (fun c => resolveServiceName c == k) with
  | nil => simp
  | cons c fl =>
    simp only [List.foldl_cons]
    rw [optionFold_some]
    simp [memberEntry]

theorem foldl_stepE_replicas :
    ∀ (fl : List DockerContainerSummary) (e : ServiceEntry),
      (fl.foldl stepE e).replicas = e.replicas + fl.length
  | [], e => by simp
  | c :: fl, e => by
    simp only [List.foldl_cons, List.length_cons]
    rw [foldl_stepE_replicas fl]
    simp [stepE, serviceStep]
    omega

theorem foldl_stepE_states :
    ∀ (fl : List DockerContainerSummary) (e : ServiceEntry),
      (fl.foldl stepE e).states = e.states ++ fl.map (fun c => mapContainerState c.State)
  | [], e => by simp
  | c :: fl, e => by
    simp only [List.foldl_cons, List.map_cons]
    rw [foldl_stepE_states fl]
    simp [stepE, serviceStep]

theorem foldl_stepE_ports :
    ∀ (fl : List DockerContainerSummary) (e : ServiceEntry),
      (fl.foldl stepE e).ports = fl.foldl (fun acc c => addPorts acc c.Ports) e.ports
  | [], e => by simp
  | c :: fl, e => by
    simp only [List.foldl_cons]
    rw [foldl_stepE_ports fl]
    rfl

theorem memberEntry_replicas (members : List DockerContainerSummary)
    (h : members ≠ []) : (memberEntry members).replicas = members.length := by
  cases members with
  | nil => exact absurd rfl h
  | cons c fl =>
    simp only [memberEntry, List.length_cons]
    rw [foldl_stepE_replicas fl]
    simp [serviceStep]
    omega

theorem memberEntry_states (members : List DockerContainerSummary)
    (h : members ≠ []) :
    (memberEntry members).states = members.map (fun c => mapContainerState c.State) := by
  cases members with
  | nil => exact absurd rfl h
  | cons c fl =>
    simp only [memberEntry, List.map_cons]
    rw [foldl_stepE_states fl]
    simp [serviceStep]

/-! ### Lemmas: port rendering -/

theorem mem_insertUnique (l : List String) (s x : String) :
    x ∈ insertUnique l s ↔ x ∈ l ∨ x = s := by
  unfold insertUnique
  by_cases h : l.contains s
  · rw [if_pos h]
    have hs : s ∈ l := by simpa using h
    constructor
    · exact Or.inl
    · rintro (hx | rfl)
      · exact hx
      · exact hs
  · rw [if_neg h]
    simp

theorem nodup_insertUnique (l : List String) (s : String) (h : l.Nodup) :
    (insertUnique l s).Nodup := by
  unfold insertUnique
  by_cases hc : l.contains s
  · rwa [if_pos hc]
  · rw [if_neg hc]
    have hs : s ∉ l := by simpa using hc
    simp [List.nodup_append, h, hs]

theorem mem_addPorts :
    ∀ (ports : List DockerPort) (acc : List String) (x : String),
      x ∈ addPorts acc ports →
        x ∈ acc ∨ ∃ p ∈ ports, natTruthy p.PrivatePort = true ∧ x = renderPort p
  | [], acc, x, h => Or.inl h
  | p :: ports, acc, x, h => by
    simp only [addPorts, List.foldl_cons] at h
    by_cases hp : natTruthy p.PrivatePort = true
    · rw [if_pos hp] at h
      rcases mem_addPorts ports _ x h with hx | ⟨q, hq, hqt, hqx⟩
      · rcases (mem_insertUnique acc (renderPort p) x).mp hx with hx | rfl
        · exact Or.inl hx
        · exact Or.inr ⟨p, List.mem_cons_self _ _, hp, rfl⟩
      · exact Or.inr ⟨q, List.mem_cons_of_mem _ hq, hqt, hqx⟩
    · rw [if_neg hp] at h
      rcases mem_addPorts ports _ x h with hx | ⟨q, hq, hqt, hqx⟩
      · exact Or.inl hx
      · exact Or.inr ⟨q, List.mem_cons_of_mem _ hq, hqt, hqx⟩

theorem nodup_addPorts :
    ∀ (ports : List DockerPort) (acc : List String), acc.Nodup → (addPorts acc ports).Nodup
  | [], _, h => h
  | p :: ports, acc, h => by
    simp only [addPorts, List.foldl_cons]
    by_cases hp : natTruthy p.PrivatePort = true
    · rw [if_pos hp]
      exact nodup_addPorts ports _ (nodup_insertUnique acc (renderPort p) h)
    · rw [if_neg hp]
      exact nodup_addPorts ports _ h

theorem mem_portsFold :
    ∀ (fl : List DockerContainerSummary) (acc : List String) (x : String),
      x ∈ fl.foldl (fun acc c => addPorts acc c.Ports) acc →
        x ∈ acc ∨ ∃ c ∈ fl, ∃ p ∈ c.Ports, natTruthy p.PrivatePort = true ∧ x = renderPort p
  | [], acc, x, h => Or.inl h
  | c :: fl, acc, x, h => by
    simp only [List.foldl_cons] at h
    rcases mem_portsFold fl _ x h with hx | ⟨c', hc', p, hp, hpt, hpx⟩
    · rcases mem_addPorts c.Ports acc x hx with hx | ⟨p, hp, hpt, hpx⟩
      · exact Or.inl hx
      · exact Or.inr ⟨c, List.mem_cons_self _ _, p, hp, hpt, hpx⟩
    · exact Or.inr ⟨c', List.mem_cons_of_mem _ hc', p, hp, hpt, hpx⟩

theorem nodup_portsFold :
    ∀ (fl : List DockerContainerSummary) (acc : List String), acc.Nodup →
      (fl.foldl (fun acc c => addPorts acc c.Ports) acc).Nodup
  | [], _, h => h
  | c :: fl, acc, h => by
    simp only [List.foldl_cons]
    exact nodup_portsFold fl _ (nodup_addPorts c.Ports acc h)

theorem memberEntry_ports_nodup (members : List DockerContainerSummary) :
    (memberEntry members).ports.Nodup := by
  cases members with
  | nil => simp [memberEntry]
  | cons c fl =>
    simp only [memberEntry]
    rw [foldl_stepE_ports fl]
    refine nodup_portsFold fl _ ?_
    have hbase : (serviceStep c none).ports = addPorts [] c.Ports := rfl
    rw [hbase]
    exact nodup_addPorts c.Ports [] (by simp)

theorem memberEntry_ports_mem (members : List DockerContainerSummary) (x : String)
    (h : x ∈ (memberEntry members).ports) :
    ∃ c ∈ members, ∃ p ∈ c.Ports, natTruthy p.PrivatePort = true ∧ x = renderPort p := by
  cases members with
  | nil => simp [memberEntry] at h
  | cons c fl =>
    simp only [memberEntry] at h
    rw [foldl_stepE_ports fl] at h
    rcases mem_portsFold fl _ x h with hx | ⟨c', hc', p, hp, hpt, hpx⟩
    · have : (serviceStep c none).ports = addPorts [] c.Ports := rfl
      rw [this] at hx
      rcases mem_addPorts c.Ports [] x hx with hx | ⟨p, hp, hpt, hpx⟩
      · simp at hx
      · exact ⟨c, List.mem_cons_self _ _, p, hp, hpt, hpx⟩
    · exact ⟨c', List.mem_cons_of_mem _ hc', p, hp, hpt, hpx⟩

/-! ### Lemmas: the derived service list -/

theorem mem_servicesOf (cs : List DockerContainerSummary) (svc : ContainerService) :
    svc ∈ servicesOf cs ↔
      ∃ kv ∈ groupFold resolveServiceName serviceStep cs, svc = mkService kv.1 kv.2 := by
  rw [servicesOf, mem_sortBy, List.mem_map]
  constructor
  · rintro ⟨kv, hkv, rfl⟩
    exact ⟨kv, hkv, rfl⟩
  · rintro ⟨kv, hkv, rfl⟩
    exact ⟨kv, hkv, rfl⟩

theorem servicesOf_names_nodup (cs : List DockerContainerSummary) :
    ((servicesOf cs).map (fun s => s.name)).Nodup := by
  have h1 : ((groupFold resolveServiceName serviceStep cs).map
      (fun kv => mkService kv.1 kv.2)).map (fun s => s.name) =
      (groupFold resolveServiceName serviceStep cs).map Prod.fst := by
    rw [List.map_map]
    rfl
  have hp : List.Perm ((servicesOf cs).map (fun s => s.name))
      (((groupFold resolveServiceName serviceStep cs).map
        (fun kv => mkService kv.1 kv.2)).map (fun s => s.name)) :=
    (perm_sortBy svcLe _).map _
  rw [h1] at hp
  exact hp.nodup_iff.mpr (nodupKeys_groupFold _ _ cs)

theorem servicesOf_spec (cs : List DockerContainerSummary) (svc : ContainerService)
    (h : svc ∈ servicesOf cs) :
    cs.filter (fun c => resolveServiceName c == svc.name) ≠ [] ∧
    svc = mkService svc.name
      (memberEntry (cs.filter (fun c => resolveServiceName c == svc.name))) := by
  rcases (mem_servicesOf cs svc).mp h with ⟨kv, hkv, rfl⟩
  have hname : (mkService kv.1 kv.2).name = kv.1 := rfl
  have hl := lookup_eq_some_of_mem_nodup kv.1 kv.2
    (groupFold resolveServiceName serviceStep cs) (nodupKeys_groupFold _ _ cs)
    (by cases kv; exact hkv)
  rw [lookup_serviceEntries] at hl
  by_cases hf : cs.filter (fun c => resolveServiceName c == kv.1) = []
  · rw [if_pos hf] at hl
    cases hl
  · rw [if_neg hf] at hl
    injection hl with hl
    rw [hname]
    exact ⟨hf, by rw [← hl]⟩

theorem servicesOf_exists (cs : List DockerContainerSummary)
    (c : DockerContainerSummary) (h : c ∈ cs) :
    ∃ svc ∈ servicesOf cs, svc.name = resolveServiceName c := by
  set k := resolveServiceName c with hk
  have hcf : c ∈ cs.filter (fun c' => resolveServiceName c' == k) :=
    List.mem_filter.mpr ⟨h, by simp [hk]⟩
  have hf : cs.filter (fun c' => resolveServiceName c' == k) ≠ [] := by
    intro he
    rw [he] at hcf
    simp at hcf
  have hl : (groupFold resolveServiceName serviceStep cs).lookup k =
      some (memberEntry (cs.filter (fun c' => resolveServiceName c' == k))) := by
    rw [lookup_serviceEntries, if_neg hf]
  have hmem := mem_of_lookup_eq_some k _ _ hl
  refine ⟨mkService k (memberEntry (cs.filter (fun c' => resolveServiceName c' == k))), ?_, rfl⟩
  exact (mem_servicesOf cs _).mpr ⟨(k, _), hmem, rfl⟩

/-! ### Lemmas: aggregate state characterizations -/

theorem aggregateServiceState_all_running (states : List SvcState)
    (h : ∀ x ∈ states, x = SvcState.running) :
    aggregateServiceState states = .running := by
  unfold aggregateServiceState
  rw [if_pos]
  simp only [List.all_eq_true, beq_iff_eq]
  exact h

theorem aggregateServiceState_all_stopped (states : List SvcState)
    (hne : states ≠ []) (h : ∀ x ∈ states, x = SvcState.stopped) :
    aggregateServiceState states = .stopped := by
  unfold aggregateServiceState
  cases states with
  | nil => exact absurd rfl hne
  | cons s rest =>
    have hs := h s (List.mem_cons_self _ _)
    rw [if_neg, if_pos]
    · simp only [List.all_eq_true, beq_iff_eq]
      exact h
    · simp only [List.all_eq_true, beq_iff_eq]
      intro hall
      have := hall s (List.mem_cons_self _ _)
      rw [hs] at this
      cases this

theorem aggregateServiceState_restarting (states : List SvcState)
    (h : SvcState.restarting ∈ states) :
    aggregateServiceState states = .restarting := by
  unfold aggregateServiceState
  rw [if_neg, if_neg, if_pos]
  · simpa using h
  · simp only [List.all_eq_true, beq_iff_eq]
    intro hall
    have := hall _ h
    cases this
  · simp only [List.all_eq_true, beq_iff_eq]
    intro hall
    have := hall _ h
    cases this

theorem aggregateServiceState_error (states : List SvcState)
    (hrun : ¬ ∀ x ∈ states, x = SvcState.running)
    (hstop : ¬ ∀ x ∈ states, x = SvcState.stopped)
    (hres : SvcState.restarting ∉ states) :
    aggregateServiceState states = .error := by
  unfold aggregateServiceState
  rw [if_neg, if_neg, if_neg]
  · simpa using hres
  · simp only [List.all_eq_true, beq_iff_eq]
    exact hstop
  · simp only [List.all_eq_true, beq_iff_eq]
    exact hrun

/-! ### Claim theorems -/

/-- C1: the stack aggregate status functions (`aggregateStackStatus` of
`DatabaseStorage` and `determineStackStatus` of the compose client) return
`stopped` on an empty service list, `running` when every service is running,
`stopped` when every service is stopped, and `degraded` for every other mix. -/
theorem c1_stack_status_characterization (services : List ContainerService) :
    (services = [] →
      aggregateStackStatus services = .stopped ∧ determineStackStatus services = .stopped) ∧
    (services ≠ [] → (∀ s ∈ services, s.state = SvcState.running) →
      aggregateStackStatus services = .running ∧ determineStackStatus services = .running) ∧
    (services ≠ [] → (∀ s ∈ services, s.state = SvcState.stopped) →
      aggregateStackStatus services = .stopped ∧ determineStackStatus services = .stopped) ∧
    ((¬ ∀ s ∈ services, s.state = SvcState.running) →
     (¬ ∀ s ∈ services, s.state = SvcState.stopped) →
      aggregateStackStatus services = .degraded ∧ determineStackStatus services = .degraded) := by
  refine ⟨?_, ?_, ?_, ?_⟩
  · rintro rfl
    exact ⟨rfl, rfl⟩
  · intro hne hall
    have hlen : services.length ≠ 0 := by simpa [List.length_eq_zero] using hne
    constructor
    · unfold aggregateStackStatus
      rw [if_neg (by simpa [List.isEmpty_iff] using hne), if_pos]
      simp only [List.all_eq_true, beq_iff_eq]
      exact hall
    · unfold determineStackStatus
      rw [if_neg hlen, if_pos]
      rw [List.countP_eq_length]
      intro s hs
      simp [hall s hs]
  · intro hne hall
    have hlen : services.length ≠ 0 := by simpa [List.length_eq_zero] using hne
    have hrun0 : services.countP (fun s => s.state == SvcState.running) = 0 := by
      rw [List.countP_eq_zero]
      intro s hs
      simp [hall s hs]
    have hres0 : services.countP (fun s => s.state == SvcState.restarting) = 0 := by
      rw [List.countP_eq_zero]
      intro s hs
      simp [hall s hs]
    have hstopfull : services.countP (fun s => s.state == SvcState.stopped) = services.length := by
      rw [List.countP_eq_length]
      intro s hs
      simp [hall s hs]
    constructor
    · unfold aggregateStackStatus
      rw [if_neg (by simpa [List.isEmpty_iff] using hne), if_neg, if_pos]
      · simp only [List.all_eq_true, beq_iff_eq]
        exact hall
      · simp only [List.all_eq_true, beq_iff_eq]
        intro hr
        rcases List.exists_mem_of_ne_nil services hne with ⟨s, hs⟩
        have h1 := hall s hs
        have h2 := hr s hs
        rw [h1] at h2
        cases h2
    · unfold determineStackStatus
      rw [if_neg hlen, if_neg, if_pos]
      · exact ⟨hrun0, hres0, hstopfull⟩
      · rw [hrun0]
        omega
  · intro hrun hstop
    have hne : services ≠ [] := by
      rintro rfl
      exact hrun (by simp)
    have hlen : services.length ≠ 0 := by simpa [List.length_eq_zero] using hne
    have hrunlt : services.countP (fun s => s.state == SvcState.running) ≠ services.length := by
      rw [Ne, List.countP_eq_length]
      intro hall
      exact hrun (fun s hs => by simpa using hall s hs)
    have hstoplt : services.countP (fun s => s.state == SvcState.stopped) ≠ services.length := by
      rw [Ne, List.countP_eq_length]
      intro hall
      exact hstop (fun s hs => by simpa using hall s hs)
    constructor
    · unfold aggregateStackStatus
      rw [if_neg (by simpa [List.isEmpty_iff] using hne), if_neg, if_neg]
      · simp only [List.all_eq_true, beq_iff_eq]
        exact hstop
      · simp only [List.all_eq_true, beq_iff_eq]
        exact hrun
    · unfold determineStackStatus
      rw [if_neg hlen, if_neg hrunlt, if_neg]
      intro hconj
      exact hstoplt hconj.2.2

/-- Witness for C1 at concrete inputs: a single running service yields a
running stack under both status functions. -/
theorem c1_witness :
    aggregateStackStatus [svcRunning] = .running ∧
    determineStackStatus [svcRunning] = .running :=
  (c1_stack_status_characterization [svcRunning]).2.1 (by decide) (by decide)

/-- C2: in the stack derivation performed by `listStacks`
(`loadDockerStacks`), every container of a snapshot lands in exactly one
group of `groupByStackId` (the ownership-key resolution `resolveStackId` is a
total function), and the service names inside every derived stack are
pairwise distinct. -/
theorem c2_partition_and_unique_names (cs : List DockerContainerSummary) :
    (∀ c ∈ cs, ∃! g : String × List DockerContainerSummary,
        g ∈ groupByStackId cs ∧ c ∈ g.2) ∧
    (∀ st ∈ dockerStacksOf cs, (st.services.map (fun s => s.name)).Nodup) := by
  constructor
  · intro c hc
    have hcf : c ∈ cs.filter (fun c' => resolveStackId c' == resolveStackId c) :=
      List.mem_filter.mpr ⟨hc, by simp⟩
    have hf : cs.filter (fun c' => resolveStackId c' == resolveStackId c) ≠ [] := by
      intro he
      rw [he] at hcf
      simp at hcf
    refine ⟨(resolveStackId c, cs.filter (fun c' => resolveStackId c' == resolveStackId c)),
      ⟨?_, hcf⟩, ?_⟩
    · exact mem_of_lookup_eq_some _ _ _ (by rw [lookup_groupByStackId, if_neg hf])
    · rintro ⟨k, v⟩ ⟨hg, hcv⟩
      obtain ⟨hv, _⟩ := groupByStackId_mem_value cs k v hg
      have hk : resolveStackId c = k := by
        rw [hv] at hcv
        have := (List.mem_filter.mp hcv).2
        simpa using this
      subst hk
      rw [hv]
  · intro st hst
    rcases List.mem_map.mp hst with ⟨g, _, rfl⟩
    have hsv : (buildStackFromContainers g.1 g.2).services = servicesOf g.2 := rfl
    rw [hsv]
    exact servicesOf_names_nodup g.2

/-- Witness for C2 at a concrete snapshot: the single container `webContainer`
lies in exactly one derived group. -/
theorem c2_witness :
    ∃! g : String × List DockerContainerSummary,
      g ∈ groupByStackId [webContainer] ∧ webContainer ∈ g.2 :=
  (c2_partition_and_unique_names [webContainer]).1 webContainer (by decide)

/-- C3: inside one stack group, containers resolving to the same service name
are folded into a single service whose replica count is the number of member
containers and whose state is `aggregateServiceState` of the members' mapped
states; and `aggregateServiceState` realizes the claimed case analysis
(all running → running, all stopped → stopped, any restarting → restarting,
anything else → error). -/
theorem c3_service_fold (stackId : String) (cs : List DockerContainerSummary)
    (svc : ContainerService) (h : svc ∈ (buildStackFromContainers stackId cs).services) :
    (cs.filter (fun c => resolveServiceName c == svc.name) ≠ [] ∧
     svc.replicas = (cs.filter (fun c => resolveServiceName c == svc.name)).length ∧
     svc.state = aggregateServiceState
       ((cs.filter (fun c => resolveServiceName c == svc.name)).map
         (fun c => mapContainerState c.State))) ∧
    (∀ states : List SvcState,
      ((∀ x ∈ states, x = SvcState.running) → aggregateServiceState states = .running) ∧
      (states ≠ [] → (∀ x ∈ states, x = SvcState.stopped) →
        aggregateServiceState states = .stopped) ∧
      (SvcState.restarting ∈ states → aggregateServiceState states = .restarting) ∧
      ((¬ ∀ x ∈ states, x = SvcState.running) → (¬ ∀ x ∈ states, x = SvcState.stopped) →
        SvcState.restarting ∉ states → aggregateServiceState states = .error)) := by
  have hsv : svc ∈ servicesOf cs := h
  obtain ⟨hf, heq⟩ := servicesOf_spec cs svc hsv
  set members := cs.filter (fun c => resolveServiceName c == svc.name) with hm
  refine ⟨⟨hf, ?_, ?_⟩, ?_⟩
  · conv_lhs => rw [heq]
    show (memberEntry members).replicas = members.length
    exact memberEntry_replicas members hf
  · conv_lhs => rw [heq]
    show aggregateServiceState (memberEntry members).states =
      aggregateServiceState (members.map (fun c => mapContainerState c.State))
    rw [memberEntry_states members hf]
  · intro states
    exact ⟨aggregateServiceState_all_running states,
      aggregateServiceState_all_stopped states,
      aggregateServiceState_restarting states,
      aggregateServiceState_error states⟩

/-- Witness for C3 at a concrete snapshot: the `web` service derived from
`webContainer` has one replica and the aggregate of its members' states. -/
theorem c3_witness :
    [webContainer].filter (fun c => resolveServiceName c == webService.name) ≠ [] ∧
    webService.replicas
      = ([webContainer].filter (fun c => resolveServiceName c == webService.name)).length ∧
    webService.state = aggregateServiceState
      (([webContainer].filter (fun c => resolveServiceName c == webService.name)).map
        (fun c => mapContainerState c.State)) :=
  (c3_service_fold "demo" [webContainer] webService
    (show webService ∈ (buildStackFromContainers "demo" [webContainer]).services by
      have hsv : (buildStackFromContainers "demo" [webContainer]).services = [webService] := by
        decide
      rw [hsv]
      exact List.mem_cons_self _ _)).1

/-- C8: port rendering in a derived service is deterministic, deduplicated and
lexically sorted; every rendered port string is
`hostPort ++ ":"` (when a host port exists) `++ containerPort ++ "/" ++ transport`
coming from a member container's port mapping; and the snapshot exposing
`{8080→80/tcp}` and `{9090/tcp}` renders as `["8080:80/tcp", "9090/tcp"]`. -/
theorem c8_port_rendering :
    (∀ (stackId : String) (cs : List DockerContainerSummary) (svc : ContainerService),
       svc ∈ (buildStackFromContainers stackId cs).services →
         svc.ports.Nodup ∧
         svc.ports.Pairwise (fun a b => a ≤ b) ∧
         (∀ s ∈ svc.ports, ∃ c ∈ cs, resolveServiceName c = svc.name ∧
            ∃ p ∈ c.Ports, natTruthy p.PrivatePort = true ∧ s = renderPort p)) ∧
    (buildStackFromContainers "demo" [portDemoContainer]).services.map (fun s => s.ports) =
      [["8080:80/tcp", "9090/tcp"]] := by
  constructor
  · intro stackId cs svc h
    have hsv : svc ∈ servicesOf cs := h
    obtain ⟨hf, heq⟩ := servicesOf_spec cs svc hsv
    set members := cs.filter (fun c => resolveServiceName c == svc.name) with hm
    have hports : svc.ports = sortBy strLeB (memberEntry members).ports := by
      conv_lhs => rw [heq]
      rfl
    refine ⟨?_, ?_, ?_⟩
    · rw [hports]
      exact nodup_sortBy _ _ (memberEntry_ports_nodup members)
    · rw [hports]
      exact (pairwise_sortBy strLeB strLeB_total strLeB_trans _).imp
        (fun hxy => (strLeB_iff_le _ _).mp hxy)
    · intro s hs
      rw [hports, mem_sortBy] at hs
      rcases memberEntry_ports_mem members s hs with ⟨c, hcm, p, hp, hpt, hpx⟩
      have hcf := List.mem_filter.mp hcm
      exact ⟨c, hcf.1, by simpa using hcf.2, p, hp, hpt, hpx⟩
  · decide

/-- Witness for C8 at a concrete snapshot: the ports of the demo service are
deduplicated, sorted and correctly rendered. -/
theorem c8_witness :
    portDemoService.ports.Nodup ∧
    portDemoService.ports.Pairwise (fun a b => a ≤ b) ∧
    (∀ s ∈ portDemoService.ports, ∃ c ∈ [portDemoContainer],
       resolveServiceName c = portDemoService.name ∧
       ∃ p ∈ c.Ports, natTruthy p.PrivatePort = true ∧ s = renderPort p) :=
  c8_port_rendering.1 "demo" [portDemoContainer] portDemoService
    (show portDemoService ∈ (buildStackFromContainers "demo" [portDemoContainer]).services by
      have hsv : (buildStackFromContainers "demo" [portDemoContainer]).services
          = [portDemoService] := by decide
      rw [hsv]
      exact List.mem_cons_self _ _)

/-- C4 counterexample: with the engine socket absent, `listStacks`
(`DatabaseStorage.getContainerStacks`) returns the empty list — a normal
value — instead of raising an engine-unavailable error as claimed. -/
theorem c4_counterexample :
    envNoSock.avail = false ∧
    getContainerStacksDB envNoSock = .ok [] ∧
    ∀ e, getContainerStacksDB envNoSock ≠ .error e := by
  refine ⟨rfl, rfl, ?_⟩
  intro e he
  rw [show getContainerStacksDB envNoSock = .ok [] from rfl] at he
  exact Except.noConfusion he

/-- C4 amended: when the engine control socket is absent, `listStacks` returns
the empty stack list (a normal value), while `performAction` raises the
engine-not-accessible error before issuing any container mutation call. -/
theorem c4_amended (env : DockerEnv) (id : String) (action : ContainerActionInput)
    (h : env.avail = false) :
    getContainerStacksDB env = .ok [] ∧
    (performContainerAction env id action).result =
      .error (.error "Docker engine is not accessible from this environment") ∧
    (performContainerAction env id action).calls = [] := by
  unfold getContainerStacksDB loadDockerStacks performContainerAction
  rw [h]
  exact ⟨rfl, rfl, rfl⟩

/-- Witness for C4 (amended) at the concrete socketless environment. -/
theorem c4_amended_witness :
    getContainerStacksDB envNoSock = .ok [] ∧
    (performContainerAction envNoSock "web" ⟨.up, none⟩).result =
      .error (.error "Docker engine is not accessible from this environment") ∧
    (performContainerAction envNoSock "web" ⟨.up, none⟩).calls = [] :=
  c4_amended envNoSock "web" ⟨.up, none⟩ rfl

/-- C5: when the requested services resolve to an empty container subset,
`performContainerAction` returns the not-found result (`undefined`), issues no
engine mutation call, and records no telemetry. -/
theorem c5_empty_subset_not_found (env : DockerEnv) (id : String)
    (action : ContainerActionInput) (cs : List DockerContainerSummary)
    (ha : env.avail = true) (hl : env.listing 0 = .ok cs)
    (hf : filterContainersByService (cs.filter (fun c => resolveStackId c == id))
        action.services = []) :
    performContainerAction env id action = ⟨.ok none, [], []⟩ := by
  unfold performContainerAction
  rw [ha, hl]
  by_cases hsc : (cs.filter (fun c => resolveStackId c == id)).isEmpty = true
  · rw [if_pos rfl]
    dsimp only
    rw [if_pos hsc]
  · rw [if_pos rfl]
    dsimp only
    rw [if_neg hsc, if_pos (by rw [hf]; rfl)]

/-- Witness for C5: requesting the nonexistent service `nope` in the `web`
stack returns not-found with no engine call. -/
theorem c5_witness :
    performContainerAction envOk "web" ⟨.up, some ["nope"]⟩ = ⟨.ok none, [], []⟩ :=
  c5_empty_subset_not_found envOk "web" ⟨.up, some ["nope"]⟩ [webContainer]
    rfl rfl (by decide)

/-- C9: `performContainerAction` can return the not-found result even after
container mutations were issued: in `envGone` the `web` stack resolves to one
container, the start call succeeds, but the post-action re-listing no longer
contains the stack, so the call returns `undefined` with a non-empty call
trace. -/
theorem c9_not_found_after_mutation :
    performContainerAction envGone "web" ⟨.up, none⟩ =
      ⟨.ok none, [.start "c1"], []⟩ ∧
    ∃ (env : DockerEnv) (id : String) (action : ContainerActionInput),
      (performContainerAction env id action).result = .ok none ∧
      (performContainerAction env id action).calls ≠ [] :=
  ⟨by decide, envGone, "web", ⟨.up, none⟩, by decide, by decide⟩

/-- C10: an explicitly empty `services` list (which `containerActionSchema`
accepts) behaves exactly like an absent one: the service filter returns the
full container list and `performContainerAction` produces identical runs. -/
theorem c10_empty_services_targets_all :
    (∀ cs : List DockerContainerSummary,
       filterContainersByService cs (some []) = cs ∧
       filterContainersByService cs none = cs) ∧
    (∀ (env : DockerEnv) (id : String) (a : ActionKind),
       performContainerAction env id ⟨a, some []⟩ =
         performContainerAction env id ⟨a, none⟩) ∧
    parseContainerAction ⟨"up", some []⟩ = .ok ⟨.up, some []⟩ :=
  ⟨fun _ => ⟨rfl, rfl⟩, fun _ _ _ => rfl, rfl⟩

/-- C7: every completed `performAction` call (one that returns a refreshed
stack) records exactly one telemetry event summarizing the action, in both the
`DatabaseStorage` and the `MemStorage` implementation.  Telemetry recording is
the in-memory `recordTelemetryEvent` of each class, which cannot fail, so no
emission failure can reach the caller. -/
theorem performContainerAction_telemetry_shape (env : DockerEnv) (id : String)
    (action : ContainerActionInput) :
    ((∃ st, (performContainerAction env id action).result = .ok (some st)) ∧
      (performContainerAction env id action).telemetry.length = 1 ∧
      ∀ ev ∈ (performContainerAction env id action).telemetry,
        ev.metric = "container." ++ actionName action.action) ∨
    ((performContainerAction env id action).telemetry = [] ∧
      ∀ st, (performContainerAction env id action).result ≠ .ok (some st)) := by
  unfold performContainerAction
  dsimp only
  repeat' split
  all_goals
    first
      | (right
         exact ⟨rfl, fun st hst => by simp at hst⟩)
      | (left
         refine ⟨⟨_, rfl⟩, rfl, ?_⟩
         intro ev hev
         rcases List.mem_singleton.mp hev with rfl
         rfl)

theorem memPerformContainerAction_telemetry_shape (env : DockerEnv) (id : String)
    (action : ContainerActionInput) :
    ((∃ st, (memPerformContainerAction env id action).result = .ok (some st)) ∧
      (memPerformContainerAction env id action).telemetry.length = 1 ∧
      ∀ ev ∈ (memPerformContainerAction env id action).telemetry,
        ev.metric = "container." ++ actionName action.action) ∨
    ((memPerformContainerAction env id action).telemetry = [] ∧
      ∀ st, (memPerformContainerAction env id action).result ≠ .ok (some st)) := by
  unfold memPerformContainerAction
  dsimp only
  repeat' split
  all_goals
    first
      | (right
         exact ⟨rfl, fun st hst => by simp at hst⟩)
      | (left
         refine ⟨⟨_, rfl⟩, rfl, ?_⟩
         intro ev hev
         rcases List.mem_singleton.mp hev with rfl
         rfl)

theorem c7_telemetry_once (env : DockerEnv) (id : String)
    (action : ContainerActionInput) (st : ContainerStack) :
    ((performContainerAction env id action).result = .ok (some st) →
      (performContainerAction env id action).telemetry.length = 1 ∧
      ∀ ev ∈ (performContainerAction env id action).telemetry,
        ev.metric = "container." ++ actionName action.action) ∧
    ((memPerformContainerAction env id action).result = .ok (some st) →
      (memPerformContainerAction env id action).telemetry.length = 1 ∧
      ∀ ev ∈ (memPerformContainerAction env id action).telemetry,
        ev.metric = "container." ++ actionName action.action) := by
  constructor
  · intro h
    rcases performContainerAction_telemetry_shape env id action with
      ⟨_, hlen, hmet⟩ | ⟨_, hne⟩
    · exact ⟨hlen, hmet⟩
    · exact absurd h (hne st)
  · intro h
    rcases memPerformContainerAction_telemetry_shape env id action with
      ⟨_, hlen, hmet⟩ | ⟨_, hne⟩
    · exact ⟨hlen, hmet⟩
    · exact absurd h (hne st)

/-- Witness for C7: the completed `up` action on the `web` stack records
exactly one telemetry event. -/
theorem c7_witness :
    (performContainerAction envOk "web" ⟨.up, none⟩).telemetry.length = 1 ∧
    ∀ ev ∈ (performContainerAction envOk "web" ⟨.up, none⟩).telemetry,
      ev.metric = "container." ++ actionName ActionKind.up :=
  (c7_telemetry_once envOk "web" ⟨.up, none⟩ webStackStarted).1 (by decide)

/-! ### Lemmas: `splitImage` and `lastIndexOf` -/

theorem stringMk_data (s : String) : String.mk s.data = s := by
  cases s
  rfl

theorem lastIndexOf_append (c : Char) (b : List Char) :
    ∀ a : List Char, lastIndexOf c (a ++ b) =
      match lastIndexOf c b with
      | some i => some (i + a.length)
      | none => lastIndexOf c a
  | [] => by cases hb : lastIndexOf c b <;> simp [hb, lastIndexOf]
  | x :: a' => by
    have ih := lastIndexOf_append c b a'
    have hcons : lastIndexOf c ((x :: a') ++ b) =
        match lastIndexOf c (a' ++ b) with
        | some i => some (i + 1)
        | none => if x = c then some 0 else none := rfl
    rw [hcons, ih]
    cases hb : lastIndexOf c b with
    | some i =>
      dsimp only
      simp only [List.length_cons]
      exact congrArg some (by omega)
    | none =>
      dsimp only
      cases h' : lastIndexOf c a' with
      | some j => simp [lastIndexOf, h']
      | none => simp [lastIndexOf, h']

theorem lastIndexOf_eq_none (c : Char) :
    ∀ l : List Char, lastIndexOf c l = none ↔ c ∉ l
  | [] => by simp [lastIndexOf]
  | x :: xs => by
    have ih := lastIndexOf_eq_none c xs
    cases h : lastIndexOf c xs with
    | some i =>
      have hc : c ∈ xs := by
        by_contra hc
        exact absurd (ih.mpr hc) (by simp [h])
      simp [lastIndexOf, h, List.mem_cons, hc]
    | none =>
      have hc : c ∉ xs := ih.mp h
      simp only [lastIndexOf, h, List.mem_cons]
      by_cases hx : x = c
      · simp [hx]
      · simp only [if_neg hx]
        refine ⟨fun _ => ?_, fun _ => trivial⟩
        rintro (h' | h')
        · exact hx h'.symm
        · exact hc h'

theorem lastIndexOf_lt_length (c : Char) :
    ∀ (l : List Char) (i : Nat), lastIndexOf c l = some i → i < l.length
  | [], i, h => by simp [lastIndexOf] at h
  | x :: xs, i, h => by
    simp only [lastIndexOf] at h
    cases h' : lastIndexOf c xs with
    | some j =>
      rw [h'] at h
      injection h with h
      subst h
      have := lastIndexOf_lt_length c xs j h'
      simp only [List.length_cons]
      omega
    | none =>
      rw [h'] at h
      by_cases hx : x = c
      · rw [if_pos hx] at h
        injection h with h
        subst h
        simp
      · rw [if_neg hx] at h
        cases h

theorem splitImage_tag_ne_empty (image : String) : (splitImage image).2 ≠ "" := by
  unfold splitImage
  dsimp only
  split
  · simp
  · dsimp only
    split
    next h => simp
    next h => exact h

theorem jsLastIndexOf_lt_strlength (c : Char) (s : String) :
    jsLastIndexOf c s < (s.data.length : Int) := by
  unfold jsLastIndexOf
  cases h : lastIndexOf c s.data with
  | some i =>
    have := lastIndexOf_lt_length c s.data i h
    dsimp only
    omega
  | none =>
    dsimp only
    omega

theorem splitImage_eq_latest (s : String)
    (h : jsLastIndexOf ':' s = -1 ∨ jsLastIndexOf ':' s < jsLastIndexOf '/' s) :
    splitImage s = (s, "latest") := by
  unfold splitImage
  dsimp only
  rw [if_pos h]

theorem splitImage_eq_of_colon (s : String) (n : Nat)
    (hc : jsLastIndexOf ':' s = (n : Int))
    (hs : jsLastIndexOf '/' s < (n : Int)) :
    splitImage s = (String.mk (s.data.take n),
      if String.mk (s.data.drop (n + 1)) = "" then "latest"
      else String.mk (s.data.drop (n + 1))) := by
  unfold splitImage
  dsimp only
  rw [hc, if_neg]
  · simp only [Int.toNat_ofNat]
  · rintro (h | h)
    · omega
    · omega

theorem jsLast_colon_concat (r t : String) (ht : ':' ∉ t.data) :
    jsLastIndexOf ':' (r ++ ":" ++ t) = (r.data.length : Int) := by
  unfold jsLastIndexOf
  have hdata : (r ++ ":" ++ t).data = (r.data ++ [':']) ++ t.data := rfl
  rw [hdata, lastIndexOf_append ':' t.data (r.data ++ [':']),
    (lastIndexOf_eq_none ':' t.data).mpr ht]
  dsimp only
  rw [lastIndexOf_append ':' [':'] r.data,
    (show lastIndexOf ':' [':'] = some 0 from rfl)]
  dsimp only
  rw [Nat.zero_add]

theorem jsLast_slash_concat (r t : String) (ht : '/' ∉ t.data) :
    jsLastIndexOf '/' (r ++ ":" ++ t) = jsLastIndexOf '/' r := by
  unfold jsLastIndexOf
  have hdata : (r ++ ":" ++ t).data = (r.data ++ [':']) ++ t.data := rfl
  rw [hdata, lastIndexOf_append '/' t.data (r.data ++ [':']),
    (lastIndexOf_eq_none '/' t.data).mpr ht]
  dsimp only
  rw [lastIndexOf_append '/' [':'] r.data,
    (show lastIndexOf '/' [':'] = none from rfl)]

theorem splitImage_concat_tag (r t : String) (htne : t ≠ "")
    (hc : ':' ∉ t.data) (hs : '/' ∉ t.data) :
    splitImage (r ++ ":" ++ t) = (r, t) := by
  have h1 := jsLast_colon_concat r t hc
  have h2 := jsLast_slash_concat r t hs
  have h3 := jsLastIndexOf_lt_strlength '/' r
  rw [splitImage_eq_of_colon (r ++ ":" ++ t) r.data.length h1 (by rw [h2]; exact h3)]
  have hdata : (r ++ ":" ++ t).data = r.data ++ (':' :: t.data) := by
    rw [show (r ++ ":" ++ t).data = (r.data ++ [':']) ++ t.data from rfl,
      List.append_assoc]
    rfl
  have htake : (r ++ ":" ++ t).data.take r.data.length = r.data := by
    rw [hdata]
    exact List.take_left r.data _
  have hdrop : (r ++ ":" ++ t).data.drop (r.data.length + 1) = t.data := by
    rw [show (r ++ ":" ++ t).data = (r.data ++ [':']) ++ t.data from rfl]
    exact List.drop_left' (by simp)
  rw [htake, hdrop, stringMk_data, stringMk_data, if_neg htne]

theorem splitImage_no_colon (img : String) (h : ':' ∉ img.data) :
    splitImage img = (img, "latest") := by
  apply splitImage_eq_latest
  left
  unfold jsLastIndexOf
  rw [(lastIndexOf_eq_none ':' img.data).mpr h]

theorem splitImage_registry_port (p q : String) (hq : ':' ∉ q.data) :
    splitImage (p ++ "/" ++ q) = (p ++ "/" ++ q, "latest") := by
  apply splitImage_eq_latest
  have hdata : (p ++ "/" ++ q).data = (p.data ++ ['/']) ++ q.data := rfl
  have hcolon : lastIndexOf ':' (p ++ "/" ++ q).data = lastIndexOf ':' p.data := by
    rw [hdata, lastIndexOf_append ':' q.data (p.data ++ ['/']),
      (lastIndexOf_eq_none ':' q.data).mpr hq]
    dsimp only
    rw [lastIndexOf_append ':' ['/'] p.data,
      (show lastIndexOf ':' ['/'] = none from rfl)]
  cases hcp : lastIndexOf ':' p.data with
  | none =>
    left
    unfold jsLastIndexOf
    rw [hcolon, hcp]
  | some i =>
    right
    have hilt := lastIndexOf_lt_length ':' p.data i hcp
    have hslash : ∃ m : Nat, p.data.length ≤ m ∧
        lastIndexOf '/' (p ++ "/" ++ q).data = some m := by
      rw [hdata, lastIndexOf_append '/' q.data (p.data ++ ['/'])]
      cases hq' : lastIndexOf '/' q.data with
      | some j =>
        refine ⟨j + (p.data ++ ['/']).length, ?_, rfl⟩
        simp
        omega
      | none =>
        dsimp only
        rw [lastIndexOf_append '/' ['/'] p.data,
          (show lastIndexOf '/' ['/'] = some 0 from rfl)]
        exact ⟨0 + p.data.length, by omega, rfl⟩
    rcases hslash with ⟨m, hm, hms⟩
    unfold jsLastIndexOf
    rw [hcolon, hcp, hms]
    dsimp only
    omega

theorem splitImage_trailing_colon (r : String) :
    splitImage (r ++ ":") = (r, "latest") := by
  have hdata : (r ++ ":").data = r.data ++ [':'] := rfl
  have h1 : jsLastIndexOf ':' (r ++ ":") = (r.data.length : Int) := by
    unfold jsLastIndexOf
    rw [hdata, lastIndexOf_append ':' [':'] r.data,
      (show lastIndexOf ':' [':'] = some 0 from rfl)]
    dsimp only
    rw [Nat.zero_add]
  have h2 : jsLastIndexOf '/' (r ++ ":") = jsLastIndexOf '/' r := by
    unfold jsLastIndexOf
    rw [hdata, lastIndexOf_append '/' [':'] r.data,
      (show lastIndexOf '/' [':'] = none from rfl)]
  have h3 := jsLastIndexOf_lt_strlength '/' r
  rw [splitImage_eq_of_colon (r ++ ":") r.data.length h1 (by rw [h2]; exact h3)]
  have htake : (r ++ ":").data.take r.data.length = r.data := by
    rw [hdata]
    exact List.take_left r.data _
  have hdrop : (r ++ ":").data.drop (r.data.length + 1) = [] := by
    rw [hdata]
    exact List.drop_eq_nil_of_le (by simp)
  rw [htake, hdrop, stringMk_data, if_pos rfl]

/-- C6 counterexample: the live pull path (`DockerEngine.pullImage`, used by
`performContainerAction`) issues the pull with the whole image reference
`"redis:7"` as `fromImage` and no `tag` parameter, not with the split
repository and tag the claim describes. -/
theorem c6_counterexample :
    (performContainerAction envTagged "cache" ⟨.pull, none⟩).calls =
      [.pull "redis:7" none] ∧
    splitImage "redis:7" = ("redis", "7") ∧
    (performContainerAction envTagged "cache" ⟨.pull, none⟩).calls ≠
      [.pull (splitImage "redis:7").1 (some (splitImage "redis:7").2)] :=
  ⟨by decide, by decide, by decide⟩

/-- C6 amended: `splitImage` in the compose client splits at the last colon
only when it occurs after the last slash, the tag defaults to `latest` when no
such colon exists or the part after it is empty, and that client's pull issues
the request with the split repository and tag; the `DockerEngine` client used
by `DatabaseStorage` instead issues the pull with the whole unsplit reference
and no tag parameter. -/
theorem c6_amended :
    (∀ r t : String, t ≠ "" → ':' ∉ t.data → '/' ∉ t.data →
       splitImage (r ++ ":" ++ t) = (r, t)) ∧
    (∀ img : String, ':' ∉ img.data → splitImage img = (img, "latest")) ∧
    (∀ p q : String, ':' ∉ q.data →
       splitImage (p ++ "/" ++ q) = (p ++ "/" ++ q, "latest")) ∧
    (∀ r : String, splitImage (r ++ ":") = (r, "latest")) ∧
    (∀ (env : DockerEnv) (cid img : String),
       (performActionOnContainer env cid .pull img).1 =
         .pull (splitImage img).1 (some (splitImage img).2)) ∧
    (∀ img : String, pullImageCall img = .pull img none) := by
  refine ⟨splitImage_concat_tag, splitImage_no_colon, splitImage_registry_port,
    splitImage_trailing_colon, ?_, fun _ => rfl⟩
  intro env cid img
  unfold performActionOnContainer
  dsimp only
  rw [if_neg (splitImage_tag_ne_empty img)]

/-- Witness for C6 (amended) at concrete references: a plain `repo:tag` splits,
and a registry host with a port does not. -/
theorem c6_amended_witness :
    splitImage ("redis" ++ ":" ++ "7") = ("redis", "7") ∧
    splitImage ("myreg.io:5000" ++ "/" ++ "app") =
      ("myreg.io:5000" ++ "/" ++ "app", "latest") :=
  ⟨c6_amended.1 "redis" "7" (by decide) (by decide) (by decide),
   c6_amended.2.2.1 "myreg.io:5000" "app" (by decide)⟩

end HosMonitor
